import Mathlib

set_option maxRecDepth 8000

/-
Verification of the rust-dnf repository-metadata pipeline.

Shallow embedding of the Rust sources:
  src/package.rs      -> PackageError, PackageName, Version, Dependency, Package
  src/repo.rs         -> Repository (package map), parse_repomd, parse_primary_xml,
                         try_download_metadata, load_metadata, load_mock_data, search
  src/repo_manager.rs -> search_packages
  src/db.rs           -> PackageDatabase, remove_package

Modelling conventions:
  * Rust `String` is Lean `String`; helpers that the Rust standard library
    provides (`split`, `contains`, `to_lowercase`, `ends_with`) are embedded as
    executable char-list functions with the documented Rust semantics.
  * `HashMap<String, _>` is an association list; `insert` overwrites the
    binding of an existing key (HashMap iteration order is unspecified in
    Rust, so the list order carries no meaning beyond membership).
  * The quick-xml event stream is an explicit list of events.  `Event::Text`
    carries `some s` for text whose `unescape()` succeeds and `none` for text
    on which `unescape()` fails (the `?` there aborts the parse).  A
    `readErr` event is an `Err` returned by `read_event_into`.  `Event::Eof`
    is the end of the list.
  * Network and filesystem effects are a `World` function from URL to the
    downloaded file's content: `none` is a failed download (non-2xx or
    transport error); `FileContent.corrupt` is a payload whose
    decompression / UTF-8 read fails; `FileContent.xml` is a decoded event
    stream.
  * `.unwrap()` on an `Err` is the distinguished outcome `panicked`.
-/

namespace RustDnf

instance {ε α : Type} [DecidableEq ε] [DecidableEq α] : DecidableEq (Except ε α) :=
  fun x y =>
    match x, y with
    | .ok a, .ok b => if h : a = b then .isTrue (by rw [h]) else .isFalse (by simp [h])
    | .error a, .error b => if h : a = b then .isTrue (by rw [h]) else .isFalse (by simp [h])
    | .ok _, .error _ => .isFalse (by simp)
    | .error _, .ok _ => .isFalse (by simp)

/-- Error type from package.rs (`PackageError`). -/
inductive PackageError where
  | invalidName (s : String)
  | invalidVersion (s : String)
deriving DecidableEq

/-- `PackageName` from package.rs: bare name plus architecture. -/
structure PackageName where
  name : String
  arch : String
deriving DecidableEq

/-- `PackageName::new`: rejects the empty name, keeps anything else. -/
def PackageName.new (name arch : String) : Except PackageError PackageName :=
  if name = "" then .error (.invalidName name)
  else .ok ⟨name, arch⟩

/-- Rust `str::split(c)` on a char list: always at least one (possibly empty)
segment; a separator at the end yields a trailing empty segment. -/
def splitChar (c : Char) : List Char → List (List Char)
  | [] => [[]]
  | x :: xs =>
    if x = c then [] :: splitChar c xs
    else
      match splitChar c xs with
      | [] => [[x]]
      | h :: t => (x :: h) :: t

/-- `Version` from package.rs. -/
structure Version where
  epoch : Nat
  version : String
  release : String
deriving DecidableEq

/-- `Version::new`: rejects the empty version string. -/
def Version.new (epoch : Nat) (version release : String) : Except PackageError Version :=
  if version = "" then .error (.invalidVersion version)
  else .ok ⟨epoch, version, release⟩

/-- `Version::parse`: split on `-`; with at least two segments take the first
two as (version, release); otherwise the whole input is the version and the
release is "1".  The epoch is always 0. -/
def Version.parse (s : String) : Except PackageError Version :=
  match splitChar '-' s.data with
  | a :: b :: _ => .ok ⟨0, String.mk a, String.mk b⟩
  | _ => .ok ⟨0, s, "1"⟩

/-- `Dependency` from package.rs (carried, never evaluated). -/
structure Dependency where
  name : String
  version : Option String
  comparator : Option String
deriving DecidableEq

/-- `Package` from package.rs, all fields in declared order. -/
structure Package where
  name : PackageName
  version : Version
  description : String
  summary : String
  dependencies : List Dependency
  conflicts : List String
  provides : List String
  files : List String
  size : Nat
  license : String
  url : String
deriving DecidableEq

/-- `Package::new`: the three given fields, everything else empty / zero. -/
def Package.new (name : PackageName) (version : Version) (description : String) : Package :=
  ⟨name, version, description, "", [], [], [], [], 0, "", ""⟩

/-- The repository's package set: `HashMap<String, Package>` as an
association list. -/
abbrev PkgMap := List (String × Package)

/-- `HashMap::insert`: overwrite any binding of the key, then bind it. -/
def mapInsert (m : PkgMap) (k : String) (v : Package) : PkgMap :=
  m.filter (fun p => p.1 != k) ++ [(k, v)]

/-- `HashMap::get`. -/
def mapFind (m : PkgMap) (k : String) : Option Package :=
  (m.find? (fun p => p.1 == k)).map (fun p => p.2)

/-- One quick-xml event, as consumed by repo.rs.  `textEv none` is a text
token whose `unescape()` fails; `readErr` is an `Err` from the reader. -/
inductive XmlEvent where
  | startTag (name : String) (attrs : List (String × String))
  | endTag (name : String)
  | textEv (content : Option String)
  | emptyTag (name : String) (attrs : List (String × String))
  | readErr
deriving DecidableEq

/-- `try_get_attribute`: first attribute with the given key, if any. -/
def getAttr (attrs : List (String × String)) (key : String) : Option String :=
  (attrs.find? (fun p => p.1 == key)).map (fun p => p.2)

/-- Repository configuration entry from config.rs. -/
structure RepoConfig where
  name : String
  url : String
  enabled : Bool
  gpgCheck : Bool
  gpgKey : Option String
  metadataSig : Bool
deriving DecidableEq

/-- `Repository` from repo.rs: one config entry plus its package set. -/
structure Repository where
  config : RepoConfig
  packages : PkgMap
deriving DecidableEq

/-- Mutable state of the `parse_primary_xml` loop: the package set being
built, the current package (if inside a `<package>`), the text accumulator. -/
structure PState where
  packages : PkgMap
  current : Option Package
  text : String
deriving DecidableEq

/-- How a run of `parse_primary_xml` ends: `Ok(())`, an `Err` return (the
`?` on a failing `unescape`), or a panic from `.unwrap()` on an `Err`. -/
inductive PResult where
  | ok
  | error
  | panicked
deriving DecidableEq

/-- The `Ok(Event::End(e))` arm of `parse_primary_xml` (repo.rs lines
169-207): dispatch on the tag name inside `if let Some(pkg)`, then the
separate `if tag == "version"` block.  `repoName` is `self.config.name`,
passed to `PackageName::new` as the architecture argument. -/
def handleEnd (repoName tag : String) (st : PState) : PState × PResult :=
  let step1 : PState × PResult :=
    match st.current with
    | none => (st, .ok)
    | some pkg =>
      if tag = "name" then
        match PackageName.new st.text repoName with
        | .ok nm => ({ st with current := some { pkg with name := nm } }, .ok)
        | .error _ => (st, .panicked)
      else if tag = "arch" then
        ({ st with current := some { pkg with name := { pkg.name with arch := st.text } } }, .ok)
      else if tag = "summary" then
        ({ st with current := some { pkg with summary := st.text } }, .ok)
      else if tag = "description" then
        ({ st with current := some { pkg with description := st.text } }, .ok)
      else if tag = "package" then
        if pkg.name.name ≠ "unknown" then
          ({ st with packages := mapInsert st.packages pkg.name.name pkg, current := none }, .ok)
        else
          ({ st with current := none }, .ok)
      else (st, .ok)
  match step1 with
  | (st1, PResult.ok) =>
    if tag = "version" then
      match st1.current with
      | some pkg =>
        match Version.parse st1.text with
        | .ok v => ({ st1 with current := some { pkg with version := v } }, .ok)
        | .error _ => (st1, .panicked)
      | none => (st1, .ok)
    else (st1, .ok)
  | other => other

/-- The event loop of `parse_primary_xml` (repo.rs lines 151-217).
Start clears the accumulator and opens a fresh record on `<package>`;
text appends (a failing unescape propagates `Err` out, keeping the
packages inserted so far); reader errors are logged and the loop
continues; end tags dispatch through `handleEnd`; Eof returns `Ok`. -/
def parseLoop (repoName : String) : List XmlEvent → PState → PState × PResult
  | [], st => (st, .ok)
  | XmlEvent.startTag n _ :: rest, st =>
    let st' := { st with text := "" }
    if n = "package" then
      match PackageName.new "unknown" "x86_64", Version.new 0 "0" "0" with
      | .ok nm, .ok v =>
        parseLoop repoName rest { st' with current := some (Package.new nm v "") }
      | _, _ => (st', .panicked)
    else parseLoop repoName rest st'
  | XmlEvent.textEv none :: _, st => (st, .error)
  | XmlEvent.textEv (some s) :: rest, st =>
    parseLoop repoName rest { st with text := st.text ++ s }
  | XmlEvent.endTag n :: rest, st =>
    match handleEnd repoName n st with
    | (st', PResult.ok) => parseLoop repoName rest st'
    | (st', r) => (st', r)
  | XmlEvent.emptyTag _ _ :: rest, st => parseLoop repoName rest st
  | XmlEvent.readErr :: rest, st => parseLoop repoName rest st

/-- Content of a downloaded file: `corrupt` is a payload whose gz
decompression (or UTF-8 read) fails, `xml` a decoded event stream. -/
inductive FileContent where
  | corrupt
  | xml (events : List XmlEvent)
deriving DecidableEq

/-- `parse_primary_xml` on a file's content, threading `self.packages`
(the caller's map) through; an `Err` return keeps the insertions made
before the failure. -/
def parsePrimaryXml (repoName : String) (content : FileContent) (packages : PkgMap) :
    PkgMap × PResult :=
  match content with
  | .corrupt => (packages, .error)
  | .xml events =>
    match parseLoop repoName events ⟨packages, none, ""⟩ with
    | (st, r) => (st.packages, r)

/-- The scan loop of `parse_repomd` (repo.rs lines 91-125), with its three
state variables.  `none` is the function's `Err` exit: either the final
bail (no primary location found, also reached on Eof) or the early break
on a reader error, which falls into the same bail. -/
def repomdLoop : List XmlEvent → Bool → String → String → Option String
  | [], _, _, _ => none
  | XmlEvent.startTag n attrs :: rest, inData, dataType, location =>
    if n = "data" then
      let dt := match getAttr attrs "type" with
        | some t => t
        | none => dataType
      repomdLoop rest true dt location
    else if n = "location" ∧ inData = true ∧ dataType = "primary" then
      let loc := match getAttr attrs "href" with
        | some h => h
        | none => location
      repomdLoop rest inData dataType loc
    else repomdLoop rest inData dataType location
  | XmlEvent.endTag n :: rest, inData, dataType, location =>
    if n = "data" then
      if location = "" then repomdLoop rest false dataType location
      else some location
    else repomdLoop rest inData dataType location
  | XmlEvent.readErr :: _, _, _, _ => none
  | _ :: rest, inData, dataType, location => repomdLoop rest inData dataType location

/-- `parse_repomd` on a file's content (`corrupt` makes `read_to_string`
fail, also an `Err` exit). -/
def parseRepomd (content : FileContent) : Option String :=
  match content with
  | .corrupt => none
  | .xml events => repomdLoop events false "" ""

/-- Rust `str::ends_with` on char lists. -/
def listEndsWith (l suf : List Char) : Bool :=
  suf == l.drop (l.length - suf.length)

/-- The network / cache world: what a `download_file` of a URL yields
(`none` = non-2xx status or transport failure). -/
structure World where
  fetch : String → Option FileContent

/-- How `try_download_metadata` ends: success, a propagated primary-parse
`Err`, a propagated panic, or the final aggregate bail. -/
inductive TdResult where
  | ok
  | parseFail
  | panicked
  | aggregateFail
deriving DecidableEq

/-- Lift a parse result into a cascade result (an `Ok` parse is returned as
the cascade's success, an `Err` parse is returned as-is by `return`). -/
def tdOf : PResult → TdResult
  | .ok => .ok
  | .error => .parseFail
  | .panicked => .panicked

/-- The candidate loop of `try_download_metadata` (repo.rs lines 55-76)
over the remaining candidate paths.  Besides the package map and result it
returns the list of candidate paths whose download was attempted, in
order.  A candidate that downloads and ends with "primary.xml.gz" has its
parse result returned immediately; a "repomd.xml" candidate goes through
the locator and, on success, the located href is downloaded and parsed
with its result returned immediately; every other failure falls through
to the next candidate. -/
def tryDownloadGo (w : World) (repoName url : String) (packages : PkgMap) :
    List String → PkgMap × TdResult × List String
  | [] => (packages, .aggregateFail, [])
  | p :: rest =>
    match w.fetch (url ++ "/" ++ p) with
    | none =>
      match tryDownloadGo w repoName url packages rest with
      | (pk, r, tr) => (pk, r, p :: tr)
    | some content =>
      if listEndsWith p.data "primary.xml.gz".data then
        (match parsePrimaryXml repoName content packages with
         | (pk, r) => (pk, tdOf r, [p]))
      else if listEndsWith p.data "repomd.xml".data then
        (match parseRepomd content with
         | some href =>
           (match w.fetch (url ++ "/" ++ href) with
            | some c2 =>
              (match parsePrimaryXml repoName c2 packages with
               | (pk, r) => (pk, tdOf r, [p]))
            | none =>
              (match tryDownloadGo w repoName url packages rest with
               | (pk, r, tr) => (pk, r, p :: tr)))
         | none =>
           (match tryDownloadGo w repoName url packages rest with
            | (pk, r, tr) => (pk, r, p :: tr)))
      else
        (match tryDownloadGo w repoName url packages rest with
         | (pk, r, tr) => (pk, r, p :: tr))

/-- The fixed candidate list of `try_download_metadata` (repo.rs 49-53). -/
def metadataPaths : List String :=
  ["repodata/repomd.xml", "repodata/primary.xml.gz", "repodata/primary.sqlite.gz"]

/-- `try_download_metadata`. -/
def tryDownloadMetadata (w : World) (repoName url : String) (packages : PkgMap) :
    PkgMap × TdResult × List String :=
  tryDownloadGo w repoName url packages metadataPaths

/-- The seven mock packages of `load_mock_data` (repo.rs 242-278), in
construction order. -/
def mockPackages : List Package :=
  [ Package.new ⟨"nano", "x86_64"⟩ ⟨0, "2.9.8", "1.fc39"⟩ "A small text editor for consoles",
    Package.new ⟨"vim", "x86_64"⟩ ⟨0, "8.2", "1.fc39"⟩ "Vi Improved - enhanced vi editor",
    Package.new ⟨"curl", "x86_64"⟩ ⟨0, "7.61.1", "1.fc39"⟩ "Tool for transferring data with URL syntax",
    Package.new ⟨"rust", "x86_64"⟩ ⟨0, "1.70.0", "1.fc39"⟩ "The Rust programming language",
    Package.new ⟨"firefox", "x86_64"⟩ ⟨0, "115.0", "1.fc39"⟩ "Mozilla Firefox Web browser",
    Package.new ⟨"git", "x86_64"⟩ ⟨0, "2.43.0", "1.fc39"⟩ "Fast Version Control System",
    Package.new ⟨"python3", "x86_64"⟩ ⟨0, "3.11.5", "1.fc39"⟩ "Python programming language" ]

/-- `load_mock_data`: insert each mock package into `self.packages` keyed
by bare name.  (Every `PackageName::new` / `Version::new` unwrap in the
source succeeds: all literals are non-empty.) -/
def loadMockData (packages : PkgMap) : PkgMap :=
  mockPackages.foldl (fun m p => mapInsert m p.name.name p) packages

/-- How `load_metadata` ends (its `Ok(())` or an escaping panic; directory
creation is assumed to succeed in this model). -/
inductive LoadResult where
  | ok
  | panicked
deriving DecidableEq

/-- `load_metadata`: run the cascade; on any `Err` from it fall back to
the mock catalog (inserted into whatever the map holds at that point); a
panic propagates. -/
def loadMetadata (w : World) (repoName url : String) (packages : PkgMap) :
    PkgMap × LoadResult :=
  match tryDownloadMetadata w repoName url packages with
  | (pk, TdResult.ok, _) => (pk, .ok)
  | (pk, TdResult.panicked, _) => (pk, .panicked)
  | (pk, _, _) => (loadMockData pk, .ok)

/-- Rust `str::contains` (substring test) on char lists. -/
def isInfixList : List Char → List Char → Bool
  | sub, [] => sub == []
  | sub, y :: ys => (sub == (y :: ys).take sub.length) || isInfixList sub ys

/-- Rust `str::to_lowercase` (per-char lowering). -/
def strToLower (s : String) : String :=
  String.mk (s.data.map Char.toLower)

/-- `s.contains(&sub)`. -/
def containsSub (s sub : String) : Bool :=
  isInfixList sub.data s.data

/-- `Repository::search` (repo.rs 291-301): lowercase the query once, keep
the packages whose lowercased name, description or summary contains it. -/
def Repository.search (r : Repository) (query : String) : List Package :=
  let queryLower := strToLower query
  (r.packages.map (fun p => p.2)).filter
    (fun pkg =>
      containsSub (strToLower pkg.name.name) queryLower ||
      containsSub (strToLower pkg.description) queryLower ||
      containsSub (strToLower pkg.summary) queryLower)

/-- The name order used by `search_packages`'s `sort_by`. -/
def byName (a b : Package) : Prop :=
  a.name.name ≤ b.name.name

instance : DecidableRel byName := fun a b =>
  inferInstanceAs (Decidable (a.name.name ≤ b.name.name))

instance : IsTotal Package byName := ⟨fun a b => le_total a.name.name b.name.name⟩

instance : IsTrans Package byName := ⟨fun _ _ _ h1 h2 => le_trans h1 h2⟩

/-- `RepositoryManager::search_packages` (repo_manager.rs 50-59): extend
the result list with each repository's matches, then sort by bare name.
(`sort_by` is modelled by a sort wrt the same key; the spec leaves the
order of equal names undefined.) -/
def searchPackages (repos : List Repository) (query : String) : List Package :=
  let results := repos.foldl (fun acc r => acc ++ r.search query) []
  List.insertionSort byName results

/-- `InstalledPackage` from db.rs. -/
structure InstalledPackage where
  package : Package
  installedFiles : List String
  installTime : String
deriving DecidableEq

/-- `PackageDatabase` from db.rs: the in-memory map plus a model of the
persisted store file (`stored` = its current content as a map, `none`
until first saved) and a count of `save()` calls. -/
structure PackageDatabase where
  installedPackages : List (String × InstalledPackage)
  stored : Option (List (String × InstalledPackage))
  saveCount : Nat
deriving DecidableEq

/-- `PackageDatabase::save`: serialize the in-memory map into the file. -/
def dbSave (db : PackageDatabase) : PackageDatabase :=
  { db with stored := some db.installedPackages, saveCount := db.saveCount + 1 }

/-- `HashMap::remove` of a key (the mapping without that key). -/
def dbErase (m : List (String × InstalledPackage)) (k : String) :
    List (String × InstalledPackage) :=
  m.filter (fun p => p.1 != k)

/-- `HashMap::get`-style lookup used to model `remove(..).is_some()`. -/
def dbFind (m : List (String × InstalledPackage)) (k : String) : Option InstalledPackage :=
  (m.find? (fun p => p.1 == k)).map (fun p => p.2)

/-- Error from `remove_package`'s bail. -/
inductive DbError where
  | notFound (name : String)
deriving DecidableEq

/-- `PackageDatabase::remove_package` (db.rs 77-85): if the key is bound,
remove it and save; otherwise bail with not-found, touching nothing. -/
def removePackage (db : PackageDatabase) (packageName : String) :
    PackageDatabase × Except DbError Unit :=
  match dbFind db.installedPackages packageName with
  | some _ =>
    (dbSave { db with installedPackages := dbErase db.installedPackages packageName }, .ok ())
  | none => (db, .error (.notFound packageName))

/-! Helper lemmas about the primary-parser loop. -/

theorem parseLoop_start_other (rn n : String) (a : List (String × String))
    (rest : List XmlEvent) (st : PState) (h : n ≠ "package") :
    parseLoop rn (XmlEvent.startTag n a :: rest) st =
      parseLoop rn rest { st with text := "" } := by
  simp [parseLoop, h]

theorem parseLoop_start_package (rn : String) (a : List (String × String))
    (rest : List XmlEvent) (st : PState) :
    parseLoop rn (XmlEvent.startTag "package" a :: rest) st =
      parseLoop rn rest
        { st with text := "", current := some (Package.new ⟨"unknown", "x86_64"⟩ ⟨0, "0", "0"⟩ "") } := by
  simp [parseLoop, PackageName.new, Version.new]

theorem parseLoop_text_some (rn s : String) (rest : List XmlEvent) (st : PState) :
    parseLoop rn (XmlEvent.textEv (some s) :: rest) st =
      parseLoop rn rest { st with text := st.text ++ s } := by
  simp [parseLoop]

theorem parseLoop_text_none (rn : String) (rest : List XmlEvent) (st : PState) :
    parseLoop rn (XmlEvent.textEv none :: rest) st = (st, PResult.error) := by
  simp [parseLoop]

theorem parseLoop_readErr (rn : String) (rest : List XmlEvent) (st : PState) :
    parseLoop rn (XmlEvent.readErr :: rest) st = parseLoop rn rest st := by
  simp [parseLoop]

theorem parseLoop_emptyTag (rn n : String) (a : List (String × String))
    (rest : List XmlEvent) (st : PState) :
    parseLoop rn (XmlEvent.emptyTag n a :: rest) st = parseLoop rn rest st := by
  simp [parseLoop]

theorem parseLoop_end_ok (rn n : String) (rest : List XmlEvent) (st st' : PState)
    (h : handleEnd rn n st = (st', PResult.ok)) :
    parseLoop rn (XmlEvent.endTag n :: rest) st = parseLoop rn rest st' := by
  simp [parseLoop, h]

theorem parseLoop_end_stop (rn n : String) (rest : List XmlEvent) (st st' : PState)
    (r : PResult) (h : handleEnd rn n st = (st', r)) (hr : r ≠ PResult.ok) :
    parseLoop rn (XmlEvent.endTag n :: rest) st = (st', r) := by
  cases r with
  | ok => exact absurd rfl hr
  | error => simp [parseLoop, h]
  | panicked => simp [parseLoop, h]

/-- A run of the loop that ends in `Ok` continues through appended events
from the state it reached. -/
theorem parseLoop_append (rn : String) (xs ys : List XmlEvent) (st st1 : PState)
    (h : parseLoop rn xs st = (st1, PResult.ok)) :
    parseLoop rn (xs ++ ys) st = parseLoop rn ys st1 := by
  induction xs generalizing st with
  | nil =>
    simp only [parseLoop, Prod.mk.injEq] at h
    rw [List.nil_append, h.1]
  | cons ev xs ih =>
    rw [List.cons_append]
    cases ev with
    | startTag n a =>
      by_cases hn : n = "package"
      · subst hn
        rw [parseLoop_start_package] at h ⊢
        exact ih _ h
      · rw [parseLoop_start_other rn n a _ _ hn] at h ⊢
        exact ih _ h
    | endTag n =>
      rcases hE : handleEnd rn n st with ⟨st', r⟩
      cases r with
      | ok =>
        rw [parseLoop_end_ok rn n _ st st' hE] at h ⊢
        exact ih _ h
      | error =>
        rw [parseLoop_end_stop rn n _ st st' _ hE (by simp)] at h
        simp at h
      | panicked =>
        rw [parseLoop_end_stop rn n _ st st' _ hE (by simp)] at h
        simp at h
    | textEv c =>
      cases c with
      | none =>
        rw [parseLoop_text_none] at h
        simp at h
      | some s =>
        rw [parseLoop_text_some] at h ⊢
        exact ih _ h
    | emptyTag n a =>
      rw [parseLoop_emptyTag] at h ⊢
      exact ih _ h
    | readErr =>
      rw [parseLoop_readErr] at h ⊢
      exact ih _ h

/-- `handleEnd` on the package's own end tag while a record is open:
a record still named "unknown" is dropped, any other is inserted keyed by
its bare name; either way the open record is closed. -/
theorem handleEnd_package (rn : String) (pks : PkgMap) (pkg : Package) (txt : String) :
    handleEnd rn "package" ⟨pks, some pkg, txt⟩ =
      (if pkg.name.name = "unknown" then (⟨pks, none, txt⟩ : PState)
       else ⟨mapInsert pks pkg.name.name pkg, none, txt⟩, PResult.ok) := by
  by_cases hu : pkg.name.name = "unknown" <;> simp [handleEnd, hu]

/-- Primary document with two distinct package names and a third block whose
name never leaves the placeholder (it has only a summary). -/
def doc1 : List XmlEvent :=
  [ .startTag "metadata" [],
    .startTag "package" [], .startTag "name" [], .textEv (some "alpha"), .endTag "name",
    .startTag "version" [], .textEv (some "1.0-1.fc39"), .endTag "version", .endTag "package",
    .startTag "package" [], .startTag "name" [], .textEv (some "beta"), .endTag "name", .endTag "package",
    .startTag "package" [], .startTag "summary" [], .textEv (some "no name set"), .endTag "summary", .endTag "package",
    .endTag "metadata" ]

/-- Primary document with two package blocks of the identical name and
different summaries. -/
def doc2 : List XmlEvent :=
  [ .startTag "package" [], .startTag "name" [], .textEv (some "same"), .endTag "name",
    .startTag "summary" [], .textEv (some "first"), .endTag "summary", .endTag "package",
    .startTag "package" [], .startTag "name" [], .textEv (some "same"), .endTag "name",
    .startTag "summary" [], .textEv (some "second"), .endTag "summary", .endTag "package" ]

/-- C1: on a package element's own end tag, a record still carrying the
"unknown" placeholder name is discarded and any other record is inserted
into the package set keyed by its bare name, overwriting a prior entry of
that name; hence the document with two distinct names and one placeholder
block yields exactly the two named records, and the document with two
identically-named blocks yields one record with the later block's fields. -/
theorem c1_package_end_last_write_wins :
    (∀ (rn : String) (rest : List XmlEvent) (pks : PkgMap) (txt : String) (pkg : Package),
      parseLoop rn (XmlEvent.endTag "package" :: rest) ⟨pks, some pkg, txt⟩ =
        (if pkg.name.name = "unknown" then parseLoop rn rest ⟨pks, none, txt⟩
         else parseLoop rn rest ⟨mapInsert pks pkg.name.name pkg, none, txt⟩)) ∧
    parsePrimaryXml "fedora" (.xml doc1) [] =
      ([("alpha", Package.new ⟨"alpha", "fedora"⟩ ⟨0, "1.0", "1.fc39"⟩ ""),
        ("beta", Package.new ⟨"beta", "fedora"⟩ ⟨0, "0", "0"⟩ "")], PResult.ok) ∧
    parsePrimaryXml "fedora" (.xml doc2) [] =
      ([("same", { Package.new ⟨"same", "fedora"⟩ ⟨0, "0", "0"⟩ "" with summary := "second" })],
        PResult.ok) := by
  refine ⟨?_, by decide, by decide⟩
  intro rn rest pks txt pkg
  by_cases hu : pkg.name.name = "unknown"
  · rw [parseLoop_end_ok rn "package" rest _ _ (by rw [handleEnd_package, if_pos hu]), if_pos hu]
  · rw [parseLoop_end_ok rn "package" rest _ _ (by rw [handleEnd_package, if_neg hu]), if_neg hu]

/-- A well-formed primary document whose package's name element has empty
text content. -/
def emptyNameDoc : List XmlEvent :=
  [ .startTag "metadata" [], .startTag "package" [], .startTag "name" [], .endTag "name",
    .endTag "package", .endTag "metadata" ]

/-- C10: `PackageName::new` rejects the empty string, and on the name end
tag the parser unwraps its result, so a package element whose name element
has empty text content makes the parse panic (the distinguished `panicked`
outcome) instead of returning an error or skipping the record. -/
theorem c10_parser_panics_on_empty_name :
    PackageName.new "" "fedora" = .error (.invalidName "") ∧
    parsePrimaryXml "fedora" (.xml emptyNameDoc) [] = ([], PResult.panicked) := by
  exact ⟨by decide, by decide⟩

/-- A primary document that inserts one complete package ("zsh") and then
hits a text token whose unescape fails. -/
def zshDoc : List XmlEvent :=
  [ .startTag "package" [], .startTag "name" [], .textEv (some "zsh"), .endTag "name",
    .endTag "package", .textEv none ]

/-- C6: a reader error event is tolerated and the scan simply continues
from the same state, while a failing unescape (the unrecoverable stream
error) aborts the parse at once with an error, keeping every package
inserted so far and never looking at the remaining events; concretely, a
document that inserts "zsh" and then aborts leaves "zsh" in the set. -/
theorem c6_malformed_tolerated_abort_keeps_partial :
    (∀ (rn : String) (pre post : List XmlEvent) (st st1 : PState),
      parseLoop rn pre st = (st1, PResult.ok) →
      parseLoop rn (pre ++ XmlEvent.readErr :: post) st = parseLoop rn post st1) ∧
    (∀ (rn : String) (pre post : List XmlEvent) (st st1 : PState),
      parseLoop rn pre st = (st1, PResult.ok) →
      parseLoop rn (pre ++ XmlEvent.textEv none :: post) st = (st1, PResult.error)) ∧
    parsePrimaryXml "fedora" (.xml zshDoc) [] =
      ([("zsh", Package.new ⟨"zsh", "fedora"⟩ ⟨0, "0", "0"⟩ "")], PResult.error) := by
  refine ⟨?_, ?_, by decide⟩
  · intro rn pre post st st1 h
    rw [parseLoop_append rn pre _ st st1 h, parseLoop_readErr]
  · intro rn pre post st st1 h
    rw [parseLoop_append rn pre _ st st1 h, parseLoop_text_none]

/-- Witness for C6 at a concrete document: the events before the bad text
token insert "zsh" and end in `Ok`, and the parse of the whole stream stops
right there with the partial package set kept. -/
theorem c6_malformed_tolerated_abort_keeps_partial_witness :
    parseLoop "fedora"
      ([ XmlEvent.startTag "package" [], XmlEvent.startTag "name" [],
         XmlEvent.textEv (some "zsh"), XmlEvent.endTag "name", XmlEvent.endTag "package" ] ++
        XmlEvent.textEv none :: [XmlEvent.endTag "metadata"])
      ⟨[], none, ""⟩ =
      (⟨[("zsh", Package.new ⟨"zsh", "fedora"⟩ ⟨0, "0", "0"⟩ "")], none, "zsh"⟩, PResult.error) :=
  c6_malformed_tolerated_abort_keeps_partial.2.1 "fedora"
    [ XmlEvent.startTag "package" [], XmlEvent.startTag "name" [],
      XmlEvent.textEv (some "zsh"), XmlEvent.endTag "name", XmlEvent.endTag "package" ]
    [XmlEvent.endTag "metadata"] ⟨[], none, ""⟩ _ (by decide)

/-- An index document has no primary entry when no "data" start tag
carries a `type="primary"` attribute. -/
def noPrimaryEntry (events : List XmlEvent) : Bool :=
  events.all (fun e =>
    match e with
    | .startTag n attrs => !(n == "data" && (getAttr attrs "type" == some "primary"))
    | _ => true)

theorem repomdLoop_no_primary (events : List XmlEvent) :
    ∀ (inData : Bool) (dt : String), dt ≠ "primary" → noPrimaryEntry events = true →
    repomdLoop events inData dt "" = none := by
  induction events with
  | nil => intro inData dt _ _; simp [repomdLoop]
  | cons ev rest ih =>
    intro inData dt hdt hall
    rw [noPrimaryEntry, List.all_cons, Bool.and_eq_true] at hall
    have hrest : noPrimaryEntry rest = true := hall.2
    cases ev with
    | startTag n attrs =>
      by_cases hn : n = "data"
      · subst hn
        have hty : ¬ getAttr attrs "type" = some "primary" := by
          have := hall.1
          simp at this
          exact this
        simp only [repomdLoop, if_pos rfl]
        rcases hga : getAttr attrs "type" with _ | t
        · simp only []
          exact ih true dt hdt hrest
        · simp only []
          refine ih true t ?_ hrest
          intro hteq
          exact hty (by rw [hga, hteq])
      · have hguard : ¬ (n = "location" ∧ inData = true ∧ dt = "primary") :=
          fun hg => hdt hg.2.2
        simp only [repomdLoop, if_neg hn, if_neg hguard]
        exact ih inData dt hdt hrest
    | endTag n =>
      by_cases hn : n = "data"
      · subst hn
        simp only [repomdLoop, if_pos rfl, if_pos rfl]
        exact ih false dt hdt hrest
      · simp only [repomdLoop, if_neg hn]
        exact ih inData dt hdt hrest
    | textEv c =>
      simp only [repomdLoop]
      exact ih inData dt hdt hrest
    | emptyTag n a =>
      simp only [repomdLoop]
      exact ih inData dt hdt hrest
    | readErr => simp [repomdLoop]

/-- The index document of the spec's first locator property: one data
entry of type "primary" with a nested location element. -/
def repomdDoc : List XmlEvent :=
  [ .startTag "repomd" [],
    .startTag "data" [("type", "primary")],
    .startTag "location" [("href", "repodata/primary.xml.gz")],
    .endTag "location", .endTag "data", .endTag "repomd" ]

/-- C4: on the index document with one type="primary" data entry holding a
location with href "repodata/primary.xml.gz" the locator returns exactly
that string, and on every index document with no type="primary" entry it
takes its not-found error exit (modelled as `none`). -/
theorem c4_locator_primary_href :
    parseRepomd (.xml repomdDoc) = some "repodata/primary.xml.gz" ∧
    (∀ events : List XmlEvent, noPrimaryEntry events = true →
      parseRepomd (.xml events) = none) := by
  refine ⟨by decide, ?_⟩
  intro events hall
  simp only [parseRepomd]
  exact repomdLoop_no_primary events false "" (by decide) hall

/-- Witness for C4 on a concrete index document whose only data entry has
type "filelists". -/
theorem c4_locator_primary_href_witness :
    parseRepomd (.xml
      [ XmlEvent.startTag "repomd" [],
        XmlEvent.startTag "data" [("type", "filelists")],
        XmlEvent.startTag "location" [("href", "repodata/filelists.xml.gz")],
        XmlEvent.endTag "location", XmlEvent.endTag "data",
        XmlEvent.endTag "repomd" ]) = none :=
  c4_locator_primary_href.2
    [ XmlEvent.startTag "repomd" [],
      XmlEvent.startTag "data" [("type", "filelists")],
      XmlEvent.startTag "location" [("href", "repodata/filelists.xml.gz")],
      XmlEvent.endTag "location", XmlEvent.endTag "data",
      XmlEvent.endTag "repomd" ] (by decide)

/-! Helper lemmas about `splitChar`. -/

theorem splitChar_not_mem (c : Char) (l : List Char) (h : c ∉ l) :
    splitChar c l = [l] := by
  induction l with
  | nil => simp [splitChar]
  | cons x xs ih =>
    have hx : ¬ x = c := fun he => h (he ▸ List.mem_cons_self x xs)
    have hxs : c ∉ xs := fun hm => h (List.mem_cons_of_mem x hm)
    rw [splitChar, if_neg hx, ih hxs]

theorem splitChar_first (c : Char) (v r : List Char) (h : c ∉ v) :
    splitChar c (v ++ c :: r) = v :: splitChar c r := by
  induction v with
  | nil => simp [splitChar]
  | cons x xs ih =>
    have hx : ¬ x = c := fun he => h (he ▸ List.mem_cons_self x xs)
    have hxs : c ∉ xs := fun hm => h (List.mem_cons_of_mem x hm)
    rw [List.cons_append, splitChar, if_neg hx, ih hxs]

theorem splitChar_head (c : Char) (r : List Char) :
    ∃ t, splitChar c r = r.takeWhile (fun x => x != c) :: t := by
  induction r with
  | nil => exact ⟨[], rfl⟩
  | cons x xs ih =>
    by_cases hx : x = c
    · subst hx
      refine ⟨splitChar x xs, ?_⟩
      rw [splitChar, if_pos rfl, List.takeWhile_cons]
      simp
    · obtain ⟨t, ht⟩ := ih
      refine ⟨t, ?_⟩
      rw [splitChar, if_neg hx, ht, List.takeWhile_cons]
      simp [hx]

/-- C5 counterexample: the claim predicts that the release of "1-2-3" is
the entire remainder "2-3" after the first `-`, but `Version::parse` takes
only the second split segment "2". -/
theorem c5_counterexample_release_not_remainder :
    Version.parse "1-2-3" = .ok ⟨0, "1", "2"⟩ ∧
    ¬ Version.parse "1-2-3" = .ok ⟨0, "1", "2-3"⟩ := by
  exact ⟨by decide, by decide⟩

/-- C5 amended: `Version::parse` always succeeds with epoch 0; on an input
with at least one `-` the version is the text before the first `-` and the
release is the text between the first `-` and the following `-` (or the end
of the input), not the entire remainder; on an input with no `-` the
version is the whole input and the release is "1". -/
theorem c5_parse_split_behaviour :
    (∀ s : String, ∃ v : Version, Version.parse s = .ok v ∧ v.epoch = 0) ∧
    (∀ v r : List Char, '-' ∉ v →
      Version.parse (String.mk (v ++ '-' :: r)) =
        .ok ⟨0, String.mk v, String.mk (r.takeWhile (fun x => x != '-'))⟩) ∧
    (∀ s : String, '-' ∉ s.data → Version.parse s = .ok ⟨0, s, "1"⟩) := by
  refine ⟨?_, ?_, ?_⟩
  · intro s
    rcases h : splitChar '-' s.data with _ | ⟨a, _ | ⟨b, t⟩⟩
    · exact ⟨⟨0, s, "1"⟩, by simp [Version.parse, h], rfl⟩
    · exact ⟨⟨0, s, "1"⟩, by simp [Version.parse, h], rfl⟩
    · exact ⟨⟨0, String.mk a, String.mk b⟩, by simp [Version.parse, h], rfl⟩
  · intro v r hv
    obtain ⟨t, ht⟩ := splitChar_head '-' r
    simp only [Version.parse, splitChar_first '-' v r hv, ht]
  · intro s hs
    simp only [Version.parse, splitChar_not_mem '-' s.data hs]

/-- Witness for C5 at "1-2-3" (as a char list: between the first and second
dash stands "2"). -/
theorem c5_parse_split_behaviour_witness :
    Version.parse (String.mk (['1'] ++ '-' :: ['2', '-', '3'])) =
      .ok ⟨0, String.mk ['1'], String.mk (['2', '-', '3'].takeWhile (fun x => x != '-'))⟩ :=
  c5_parse_split_behaviour.2.1 ['1'] ['2', '-', '3'] (by decide)

/-- C7: `Version::new` enforces the non-empty-version invariant with an
error, but `Version::parse` constructs the record directly and on the empty
input (or an input starting with `-`) yields a `Version` whose version
field is the empty string, breaking the invariant. -/
theorem c7_parse_breaks_nonempty_version :
    Version.new 0 "" "1" = .error (.invalidVersion "") ∧
    Version.parse "" = .ok ⟨0, "", "1"⟩ ∧
    Version.parse "-1.fc39" = .ok ⟨0, "", "1.fc39"⟩ := by
  exact ⟨by decide, by decide, by decide⟩

/-! Helper lemmas about the download cascade. -/

/-- One cascade step whose download fails: recurse on the remaining
candidates, recording the attempt. -/
theorem tryDownloadGo_cons_none (w : World) (rn url : String) (pks : PkgMap)
    (p : String) (rest : List String) (h : w.fetch (url ++ "/" ++ p) = none) :
    tryDownloadGo w rn url pks (p :: rest) =
      ((tryDownloadGo w rn url pks rest).1, (tryDownloadGo w rn url pks rest).2.1,
        p :: (tryDownloadGo w rn url pks rest).2.2) := by
  rcases hgo : tryDownloadGo w rn url pks rest with ⟨pk, r, tr⟩
  simp only [tryDownloadGo, h, hgo]

/-- One cascade step for the direct primary listing once its download
succeeds: the parse result is returned immediately, whether or not it is
an error. -/
theorem tryDownloadGo_primary_step (w : World) (rn url : String) (pks : PkgMap)
    (content : FileContent) (rest : List String)
    (h : w.fetch (url ++ "/" ++ "repodata/primary.xml.gz") = some content) :
    tryDownloadGo w rn url pks ("repodata/primary.xml.gz" :: rest) =
      ((parsePrimaryXml rn content pks).1, tdOf (parsePrimaryXml rn content pks).2,
        ["repodata/primary.xml.gz"]) := by
  rcases hp : parsePrimaryXml rn content pks with ⟨pk, r⟩
  simp only [tryDownloadGo, h, hp]
  split_ifs with hc1 hc2
  · rfl
  · exact absurd (by decide) hc1
  · exact absurd (by decide) hc1

/-- One cascade step for the index candidate whose download succeeds but
whose locate fails: the cascade advances, recording the attempt. -/
theorem tryDownloadGo_locate_fail (w : World) (rn url : String) (pks : PkgMap)
    (c : FileContent) (rest : List String)
    (h : w.fetch (url ++ "/" ++ "repodata/repomd.xml") = some c)
    (hl : parseRepomd c = none) :
    tryDownloadGo w rn url pks ("repodata/repomd.xml" :: rest) =
      ((tryDownloadGo w rn url pks rest).1, (tryDownloadGo w rn url pks rest).2.1,
        "repodata/repomd.xml" :: (tryDownloadGo w rn url pks rest).2.2) := by
  rcases hgo : tryDownloadGo w rn url pks rest with ⟨pk, r, tr⟩
  simp only [tryDownloadGo, h, hl, hgo]
  split_ifs with hc1 hc2
  · exact absurd hc1 (by decide)
  · rfl
  · exact absurd (by decide) hc2

/-- One cascade step for the index candidate whose locate succeeds but
whose located href fails to download: the cascade advances. -/
theorem tryDownloadGo_href_none (w : World) (rn url : String) (pks : PkgMap)
    (c : FileContent) (href : String) (rest : List String)
    (h : w.fetch (url ++ "/" ++ "repodata/repomd.xml") = some c)
    (hl : parseRepomd c = some href)
    (h2 : w.fetch (url ++ "/" ++ href) = none) :
    tryDownloadGo w rn url pks ("repodata/repomd.xml" :: rest) =
      ((tryDownloadGo w rn url pks rest).1, (tryDownloadGo w rn url pks rest).2.1,
        "repodata/repomd.xml" :: (tryDownloadGo w rn url pks rest).2.2) := by
  rcases hgo : tryDownloadGo w rn url pks rest with ⟨pk, r, tr⟩
  simp only [tryDownloadGo, h, hl, h2, hgo]
  split_ifs with hc1 hc2
  · exact absurd hc1 (by decide)
  · rfl
  · exact absurd (by decide) hc2

/-- One cascade step for the index candidate whose whole chain reaches
the primary parse: that parse's result is returned immediately. -/
theorem tryDownloadGo_repomd_parse (w : World) (rn url : String) (pks : PkgMap)
    (c : FileContent) (href : String) (c2 : FileContent) (rest : List String)
    (h : w.fetch (url ++ "/" ++ "repodata/repomd.xml") = some c)
    (hl : parseRepomd c = some href)
    (h2 : w.fetch (url ++ "/" ++ href) = some c2) :
    tryDownloadGo w rn url pks ("repodata/repomd.xml" :: rest) =
      ((parsePrimaryXml rn c2 pks).1, tdOf (parsePrimaryXml rn c2 pks).2,
        ["repodata/repomd.xml"]) := by
  rcases hp : parsePrimaryXml rn c2 pks with ⟨pk, r⟩
  simp only [tryDownloadGo, h, hl, h2, hp]
  split_ifs with hc1 hc2
  · exact absurd hc1 (by decide)
  · rfl
  · exact absurd (by decide) hc2

/-- One cascade step for the primary-database candidate when it does
download: it matches no supported format, so it is skipped and the
cascade advances. -/
theorem tryDownloadGo_sqlite_skip (w : World) (rn url : String) (pks : PkgMap)
    (c : FileContent) (rest : List String)
    (h : w.fetch (url ++ "/" ++ "repodata/primary.sqlite.gz") = some c) :
    tryDownloadGo w rn url pks ("repodata/primary.sqlite.gz" :: rest) =
      ((tryDownloadGo w rn url pks rest).1, (tryDownloadGo w rn url pks rest).2.1,
        "repodata/primary.sqlite.gz" :: (tryDownloadGo w rn url pks rest).2.2) := by
  rcases hgo : tryDownloadGo w rn url pks rest with ⟨pk, r, tr⟩
  simp only [tryDownloadGo, h, hgo]
  split_ifs with hc1 hc2
  · exact absurd hc1 (by decide)
  · exact absurd hc2 (by decide)
  · rfl

/-- The index candidate fails before reaching a primary parse: its
download fails, or its locate fails, or the located href fails to
download. -/
def repomdCandidateFails (w : World) (url : String) : Prop :=
  match w.fetch (url ++ "/" ++ "repodata/repomd.xml") with
  | none => True
  | some c =>
    match parseRepomd c with
    | none => True
    | some href => w.fetch (url ++ "/" ++ href) = none

theorem repomdCandidateFails_of_none (w : World) (url : String)
    (h : w.fetch (url ++ "/" ++ "repodata/repomd.xml") = none) :
    repomdCandidateFails w url := by
  simp only [repomdCandidateFails, h]

/-- Whenever the index candidate fails at any of its pre-parse stages,
the cascade advances past it, recording the attempt. -/
theorem tryDownloadGo_repomd_fails (w : World) (rn url : String) (pks : PkgMap)
    (rest : List String) (h : repomdCandidateFails w url) :
    tryDownloadGo w rn url pks ("repodata/repomd.xml" :: rest) =
      ((tryDownloadGo w rn url pks rest).1, (tryDownloadGo w rn url pks rest).2.1,
        "repodata/repomd.xml" :: (tryDownloadGo w rn url pks rest).2.2) := by
  rcases hf : w.fetch (url ++ "/" ++ "repodata/repomd.xml") with _ | c
  · exact tryDownloadGo_cons_none w rn url pks _ rest hf
  · simp only [repomdCandidateFails, hf] at h
    rcases hr : parseRepomd c with _ | href
    · exact tryDownloadGo_locate_fail w rn url pks c rest hf hr
    · rw [hr] at h
      exact tryDownloadGo_href_none w rn url pks c href rest hf hr h

/-- The candidates whose download the cascade attempts always form an
in-order initial segment of the fixed candidate list (so no candidate is
ever attempted twice, and none out of order). -/
theorem tryDownloadGo_trace (w : World) (rn url : String) (pks : PkgMap)
    (paths : List String) :
    ∃ n, (tryDownloadGo w rn url pks paths).2.2 = paths.take n := by
  induction paths with
  | nil => exact ⟨0, rfl⟩
  | cons p rest ih =>
    rcases hf : w.fetch (url ++ "/" ++ p) with _ | content
    · obtain ⟨n, hn⟩ := ih
      refine ⟨n + 1, ?_⟩
      rcases hgo : tryDownloadGo w rn url pks rest with ⟨pk, r, tr⟩
      rw [hgo] at hn
      simp only [tryDownloadGo, hf, hgo, List.take_succ_cons]
      simpa using hn
    · by_cases h1 : listEndsWith p.data ("primary.xml.gz").data = true
      · refine ⟨1, ?_⟩
        rcases hp : parsePrimaryXml rn content pks with ⟨pk, r⟩
        simp [tryDownloadGo, hf, h1, hp]
      · by_cases h2 : listEndsWith p.data ("repomd.xml").data = true
        · rcases hr : parseRepomd content with _ | href
          · obtain ⟨n, hn⟩ := ih
            refine ⟨n + 1, ?_⟩
            rcases hgo : tryDownloadGo w rn url pks rest with ⟨pk, r, tr⟩
            rw [hgo] at hn
            simp only [tryDownloadGo, hf, h1, h2, hr, hgo, List.take_succ_cons]
            simpa using hn
          · rcases hf2 : w.fetch (url ++ "/" ++ href) with _ | c2
            · obtain ⟨n, hn⟩ := ih
              refine ⟨n + 1, ?_⟩
              rcases hgo : tryDownloadGo w rn url pks rest with ⟨pk, r, tr⟩
              rw [hgo] at hn
              simp only [tryDownloadGo, hf, h1, h2, hr, hf2, hgo, List.take_succ_cons]
              simpa using hn
            · refine ⟨1, ?_⟩
              rcases hp : parsePrimaryXml rn c2 pks with ⟨pk, r⟩
              simp [tryDownloadGo, hf, h1, h2, hr, hf2, hp]
        · obtain ⟨n, hn⟩ := ih
          refine ⟨n + 1, ?_⟩
          rcases hgo : tryDownloadGo w rn url pks rest with ⟨pk, r, tr⟩
          rw [hgo] at hn
          simp only [tryDownloadGo, hf, h1, h2, hgo, List.take_succ_cons]
          simpa using hn

/-- When the index candidate fails at a pre-parse stage and the direct
primary listing fails to download, the cascade ends in the aggregate
bail with the package set untouched, having attempted all three
candidates in order (whatever the third candidate's download does, it is
never parsed). -/
theorem tryDownload_early_fail_aggregate (w : World) (rn url : String) (pks : PkgMap)
    (h1 : repomdCandidateFails w url)
    (h2 : w.fetch (url ++ "/" ++ "repodata/primary.xml.gz") = none) :
    tryDownloadMetadata w rn url pks = (pks, TdResult.aggregateFail, metadataPaths) := by
  rw [tryDownloadMetadata, metadataPaths, tryDownloadGo_repomd_fails w rn url pks _ h1,
    tryDownloadGo_cons_none w rn url pks _ _ h2]
  rcases hf3 : w.fetch (url ++ "/" ++ "repodata/primary.sqlite.gz") with _ | c3
  · rw [tryDownloadGo_cons_none w rn url pks _ _ hf3]
    rfl
  · rw [tryDownloadGo_sqlite_skip w rn url pks c3 _ hf3]
    rfl

/-- A primary-parse error on the second candidate (reached because the
index candidate failed before parsing) is returned at once: the cascade
ends in `parseFail` (not the aggregate bail) and the third candidate is
never attempted. -/
theorem tryDownload_parse_abort (w : World) (rn url : String) (pks pk2 : PkgMap)
    (c : FileContent)
    (h1 : repomdCandidateFails w url)
    (h2 : w.fetch (url ++ "/" ++ "repodata/primary.xml.gz") = some c)
    (hp : parsePrimaryXml rn c pks = (pk2, PResult.error)) :
    tryDownloadMetadata w rn url pks =
      (pk2, TdResult.parseFail, ["repodata/repomd.xml", "repodata/primary.xml.gz"]) := by
  rw [tryDownloadMetadata, metadataPaths, tryDownloadGo_repomd_fails w rn url pks _ h1,
    tryDownloadGo_primary_step w rn url pks c _ h2, hp]
  rfl

/-- A primary-parse error at the end of the index candidate's chain is
returned at once: the cascade ends in `parseFail` with only the first
candidate attempted. -/
theorem tryDownload_repomd_parse_abort (w : World) (rn url : String) (pks pk2 : PkgMap)
    (c : FileContent) (href : String) (c2 : FileContent)
    (h : w.fetch (url ++ "/" ++ "repodata/repomd.xml") = some c)
    (hl : parseRepomd c = some href)
    (h2 : w.fetch (url ++ "/" ++ href) = some c2)
    (hp : parsePrimaryXml rn c2 pks = (pk2, PResult.error)) :
    tryDownloadMetadata w rn url pks = (pk2, TdResult.parseFail, ["repodata/repomd.xml"]) := by
  rw [tryDownloadMetadata, metadataPaths,
    tryDownloadGo_repomd_parse w rn url pks c href c2 _ h hl h2, hp]
  rfl

/-! Helper lemmas about the package map and the mock catalog. -/

theorem find?_filter_ne (m : PkgMap) (k k1 : String) (h : ¬ k = k1) :
    (m.filter (fun p => p.1 != k1)).find? (fun p => p.1 == k) =
      m.find? (fun p => p.1 == k) := by
  induction m with
  | nil => rfl
  | cons hd tl ih =>
    by_cases hhd : hd.1 = k
    · have hkeep : (hd.1 != k1) = true := by simp [hhd, h]
      simp [List.filter_cons, hkeep, List.find?_cons, hhd, h]
    · by_cases hflt : hd.1 = k1
      · simp [List.filter_cons, hflt, List.find?_cons, hhd, ih, Ne.symm h]
      · simp [List.filter_cons, hflt, List.find?_cons, hhd, ih]

/-- `HashMap::insert` as seen through `get`: the inserted key maps to the
new value and every other key is untouched. -/
theorem mapFind_mapInsert (m : PkgMap) (k1 : String) (v : Package) (k : String) :
    mapFind (mapInsert m k1 v) k = if k = k1 then some v else mapFind m k := by
  by_cases hk : k = k1
  · subst hk
    have hnone : (m.filter (fun p => p.1 != k)).find? (fun p => p.1 == k) = none := by
      rw [List.find?_eq_none]
      intro x hx
      have hne := (List.mem_filter.mp hx).2
      simp at hne ⊢
      exact hne
    simp [mapFind, mapInsert, List.find?_append, hnone]
  · simp [mapFind, mapInsert, List.find?_append, find?_filter_ne m k k1 hk, hk, Ne.symm hk]

/-- Inserting the mock catalog into a map touches only the seven mock
names: every other key keeps the binding it had. -/
theorem mapFind_loadMockData (pk : PkgMap) (k : String)
    (h : ¬ k ∈ (["nano", "vim", "curl", "rust", "firefox", "git", "python3"] : List String)) :
    mapFind (loadMockData pk) k = mapFind pk k := by
  simp only [List.mem_cons, List.not_mem_nil, or_false, not_or] at h
  obtain ⟨h1, h2, h3, h4, h5, h6, h7⟩ := h
  simp [loadMockData, mockPackages, Package.new, mapFind_mapInsert, h1, h2, h3, h4, h5, h6, h7]

/-- World in which every download fails. -/
def wAllFail : World := ⟨fun _ => none⟩

/-- World in which only the direct primary listing downloads, and its
content parses one package ("zsh") before an unrecoverable stream error. -/
def w2 : World :=
  ⟨fun u => if u = "http://r/repodata/primary.xml.gz" then some (.xml zshDoc) else none⟩

/-- World in which the direct primary listing downloads but is corrupt,
while the primary database candidate would download fine. -/
def w3 : World :=
  ⟨fun u =>
    if u = "http://r/repodata/primary.xml.gz" then some FileContent.corrupt
    else if u = "http://r/repodata/primary.sqlite.gz" then some (.xml []) else none⟩

/-- C3 counterexample: in `w3` the second candidate downloads and its
parse fails, and the cascade stops right there with that parse error —
not the aggregate failure — never attempting the third candidate, which
would have downloaded. -/
theorem c3_counterexample_parse_error_aborts :
    tryDownloadMetadata w3 "fedora" "http://r" [] =
      ([], TdResult.parseFail, ["repodata/repomd.xml", "repodata/primary.xml.gz"]) ∧
    TdResult.parseFail ≠ TdResult.aggregateFail ∧
    w3.fetch ("http://r" ++ "/" ++ "repodata/primary.sqlite.gz") = some (.xml []) ∧
    ¬ "repodata/primary.sqlite.gz" ∈ (tryDownloadMetadata w3 "fedora" "http://r" []).2.2 := by
  exact ⟨by decide, by decide, by decide, by decide⟩

/-- C3 amended: a failed download of any candidate, a failed locate of the
index candidate, a failed download of the located href, and the downloaded
but unsupported primary-database candidate each advance the cascade past
that candidate; the candidates attempted always form an in-order initial
segment of the fixed priority list (no retries, no reordering); whenever
the index candidate fails before parsing and the direct primary listing
fails to download, the fetcher reports the single aggregate failure after
attempting all three candidates; but a failed primary parse — on the
direct primary candidate or at the end of the index candidate's chain —
is returned immediately, ending the cascade with that error instead of
advancing. -/
theorem c3_cascade_advances_and_aggregates :
    (∀ (w : World) (rn url : String) (pks : PkgMap) (p : String) (rest : List String),
      w.fetch (url ++ "/" ++ p) = none →
      tryDownloadGo w rn url pks (p :: rest) =
        ((tryDownloadGo w rn url pks rest).1, (tryDownloadGo w rn url pks rest).2.1,
          p :: (tryDownloadGo w rn url pks rest).2.2)) ∧
    (∀ (w : World) (rn url : String) (pks : PkgMap) (c : FileContent) (rest : List String),
      w.fetch (url ++ "/" ++ "repodata/repomd.xml") = some c →
      parseRepomd c = none →
      tryDownloadGo w rn url pks ("repodata/repomd.xml" :: rest) =
        ((tryDownloadGo w rn url pks rest).1, (tryDownloadGo w rn url pks rest).2.1,
          "repodata/repomd.xml" :: (tryDownloadGo w rn url pks rest).2.2)) ∧
    (∀ (w : World) (rn url : String) (pks : PkgMap) (c : FileContent) (href : String)
        (rest : List String),
      w.fetch (url ++ "/" ++ "repodata/repomd.xml") = some c →
      parseRepomd c = some href →
      w.fetch (url ++ "/" ++ href) = none →
      tryDownloadGo w rn url pks ("repodata/repomd.xml" :: rest) =
        ((tryDownloadGo w rn url pks rest).1, (tryDownloadGo w rn url pks rest).2.1,
          "repodata/repomd.xml" :: (tryDownloadGo w rn url pks rest).2.2)) ∧
    (∀ (w : World) (rn url : String) (pks : PkgMap) (c : FileContent) (rest : List String),
      w.fetch (url ++ "/" ++ "repodata/primary.sqlite.gz") = some c →
      tryDownloadGo w rn url pks ("repodata/primary.sqlite.gz" :: rest) =
        ((tryDownloadGo w rn url pks rest).1, (tryDownloadGo w rn url pks rest).2.1,
          "repodata/primary.sqlite.gz" :: (tryDownloadGo w rn url pks rest).2.2)) ∧
    (∀ (w : World) (rn url : String) (pks : PkgMap),
      ∃ n, (tryDownloadMetadata w rn url pks).2.2 = metadataPaths.take n) ∧
    (∀ (w : World) (rn url : String) (pks : PkgMap),
      repomdCandidateFails w url →
      w.fetch (url ++ "/" ++ "repodata/primary.xml.gz") = none →
      tryDownloadMetadata w rn url pks = (pks, TdResult.aggregateFail, metadataPaths)) ∧
    (∀ (w : World) (rn url : String) (pks pk2 : PkgMap) (c : FileContent),
      repomdCandidateFails w url →
      w.fetch (url ++ "/" ++ "repodata/primary.xml.gz") = some c →
      parsePrimaryXml rn c pks = (pk2, PResult.error) →
      tryDownloadMetadata w rn url pks =
        (pk2, TdResult.parseFail, ["repodata/repomd.xml", "repodata/primary.xml.gz"])) ∧
    (∀ (w : World) (rn url : String) (pks pk2 : PkgMap) (c : FileContent) (href : String)
        (c2 : FileContent),
      w.fetch (url ++ "/" ++ "repodata/repomd.xml") = some c →
      parseRepomd c = some href →
      w.fetch (url ++ "/" ++ href) = some c2 →
      parsePrimaryXml rn c2 pks = (pk2, PResult.error) →
      tryDownloadMetadata w rn url pks =
        (pk2, TdResult.parseFail, ["repodata/repomd.xml"])) := by
  refine ⟨tryDownloadGo_cons_none, tryDownloadGo_locate_fail, tryDownloadGo_href_none,
    tryDownloadGo_sqlite_skip, ?_, tryDownload_early_fail_aggregate, tryDownload_parse_abort,
    tryDownload_repomd_parse_abort⟩
  intro w rn url pks
  exact tryDownloadGo_trace w rn url pks metadataPaths

/-- Witness for C3: the all-downloads-fail world reaches the aggregate
failure having attempted all three candidates, and the corrupt-primary
world stops at the second candidate with the parse error. -/
theorem c3_cascade_advances_and_aggregates_witness :
    tryDownloadMetadata wAllFail "fedora" "http://r" [] =
      ([], TdResult.aggregateFail, metadataPaths) ∧
    tryDownloadMetadata w3 "fedora" "http://r" [] =
      ([], TdResult.parseFail, ["repodata/repomd.xml", "repodata/primary.xml.gz"]) :=
  ⟨c3_cascade_advances_and_aggregates.2.2.2.2.2.1 wAllFail "fedora" "http://r" []
     (repomdCandidateFails_of_none wAllFail "http://r" rfl) rfl,
   c3_cascade_advances_and_aggregates.2.2.2.2.2.2.1 w3 "fedora" "http://r" [] []
     FileContent.corrupt (repomdCandidateFails_of_none w3 "http://r" (by decide))
     (by decide) (by decide)⟩

/-- C2 counterexample: in `w2` every candidate fails (the cascade ends in
an error), yet the resulting package set is not the seven-package mock
catalog: the package inserted before the parse failure survives next to
the seven mock entries. -/
theorem c2_counterexample_partial_plus_mock :
    (tryDownloadMetadata w2 "fedora" "http://r" []).2.1 = TdResult.parseFail ∧
    w2.fetch ("http://r" ++ "/" ++ "repodata/repomd.xml") = none ∧
    w2.fetch ("http://r" ++ "/" ++ "repodata/primary.sqlite.gz") = none ∧
    ¬ (loadMetadata w2 "fedora" "http://r" []).1 = loadMockData [] ∧
    mapFind (loadMetadata w2 "fedora" "http://r" []).1 "zsh" =
      some (Package.new ⟨"zsh", "fedora"⟩ ⟨0, "0", "0"⟩ "") ∧
    (loadMetadata w2 "fedora" "http://r" []).1.length = 8 := by
  exact ⟨by decide, by decide, by decide, by decide, by decide, by decide⟩

/-- C2 amended: whenever the cascade fails — any failing result, any
candidate-failure profile behind it — `load_metadata` falls back to
inserting the mock catalog over whatever the failed cascade left in the
package map; if the failed attempts inserted nothing (the map is still
empty), the result is exactly the seven-package mock catalog keyed by the
seven bare names, while entries under any other name survive the mock
insertion unchanged. -/
theorem c2_all_fail_mock_catalog :
    (∀ (w : World) (rn url : String) (r : TdResult) (tr : List String),
      tryDownloadMetadata w rn url [] = ([], r, tr) →
      ¬ r = TdResult.ok → ¬ r = TdResult.panicked →
      loadMetadata w rn url [] = (loadMockData [], LoadResult.ok)) ∧
    (∀ (w : World) (rn url : String) (pk : PkgMap) (r : TdResult) (tr : List String),
      tryDownloadMetadata w rn url [] = (pk, r, tr) →
      ¬ r = TdResult.ok → ¬ r = TdResult.panicked →
      loadMetadata w rn url [] = (loadMockData pk, LoadResult.ok)) ∧
    (∀ (pk : PkgMap) (k : String),
      ¬ k ∈ (["nano", "vim", "curl", "rust", "firefox", "git", "python3"] : List String) →
      mapFind (loadMockData pk) k = mapFind pk k) ∧
    (loadMockData []).map Prod.fst =
      ["nano", "vim", "curl", "rust", "firefox", "git", "python3"] ∧
    mapFind (loadMockData []) "vim" =
      some (Package.new ⟨"vim", "x86_64"⟩ ⟨0, "8.2", "1.fc39"⟩
        "Vi Improved - enhanced vi editor") := by
  have general : ∀ (w : World) (rn url : String) (pk : PkgMap) (r : TdResult)
      (tr : List String), tryDownloadMetadata w rn url [] = (pk, r, tr) →
      ¬ r = TdResult.ok → ¬ r = TdResult.panicked →
      loadMetadata w rn url [] = (loadMockData pk, LoadResult.ok) := by
    intro w rn url pk r tr h hok hpan
    cases r with
    | ok => exact absurd rfl hok
    | panicked => exact absurd rfl hpan
    | parseFail => simp [loadMetadata, h]
    | aggregateFail => simp [loadMetadata, h]
  exact ⟨fun w rn url r tr h => general w rn url [] r tr h, general,
    mapFind_loadMockData, by decide, by decide⟩

/-- Witness for C2: the all-downloads-fail world (an insertion-free
aggregate failure) yields exactly the mock catalog, and a "zsh" entry
survives the mock insertion. -/
theorem c2_all_fail_mock_catalog_witness :
    loadMetadata wAllFail "fedora" "http://r" [] = (loadMockData [], LoadResult.ok) ∧
    mapFind (loadMockData [("zsh", Package.new ⟨"zsh", "fedora"⟩ ⟨0, "0", "0"⟩ "")]) "zsh" =
      mapFind [("zsh", Package.new ⟨"zsh", "fedora"⟩ ⟨0, "0", "0"⟩ "")] "zsh" :=
  ⟨c2_all_fail_mock_catalog.1 wAllFail "fedora" "http://r" TdResult.aggregateFail
     metadataPaths (by decide) (by decide) (by decide),
   c2_all_fail_mock_catalog.2.2.1 [("zsh", Package.new ⟨"zsh", "fedora"⟩ ⟨0, "0", "0"⟩ "")]
     "zsh" (by decide)⟩

/-- A repository loaded from the mock catalog, for concrete search runs. -/
def mockRepo : Repository :=
  ⟨⟨"fedora", "http://r", true, true, none, true⟩, loadMockData []⟩

/-- C8: `search_packages` depends on the query only through its
lowercasing, so two queries with the same lowercase form — in particular
two queries differing only in letter case — return identical result
lists; and every result list is sorted ascending by bare package name. -/
theorem c8_search_case_insensitive_sorted :
    (∀ (repos : List Repository) (q1 q2 : String), strToLower q1 = strToLower q2 →
      searchPackages repos q1 = searchPackages repos q2) ∧
    (∀ (repos : List Repository) (q : String),
      List.Sorted byName (searchPackages repos q)) := by
  constructor
  · intro repos q1 q2 h
    simp only [searchPackages, Repository.search, h]
  · intro repos q
    simp only [searchPackages]
    exact List.sorted_insertionSort byName _

/-- Witness for C8: "vim" and "VIM" against the mock catalog. -/
theorem c8_search_case_insensitive_sorted_witness :
    searchPackages [mockRepo] "vim" = searchPackages [mockRepo] "VIM" ∧
    List.Sorted byName (searchPackages [mockRepo] "e") :=
  ⟨c8_search_case_insensitive_sorted.1 [mockRepo] "vim" "VIM" (by decide),
   c8_search_case_insensitive_sorted.2 [mockRepo] "e"⟩

/-- C9: removing a package name that is not in the installed store bails
with the not-found error and returns the database exactly as it was: the
in-memory map, the persisted file content and the save counter are all
unchanged (no save happens on this path). -/
theorem c9_remove_missing_untouched :
    ∀ (db : PackageDatabase) (name : String),
      dbFind db.installedPackages name = none →
      removePackage db name = (db, Except.error (DbError.notFound name)) := by
  intro db name h
  simp only [removePackage, h]

/-- Witness for C9 on a database with one entry and a missing name. -/
theorem c9_remove_missing_untouched_witness :
    removePackage ⟨[], some [], 0⟩ "nano" =
      (⟨[], some [], 0⟩, Except.error (DbError.notFound "nano")) :=
  c9_remove_missing_untouched ⟨[], some [], 0⟩ "nano" (by decide)

end RustDnf
